import Mathlib

/-!
Verification of the nightona Cloudflare-Worker / Daytona sandbox subsystem.

Shallow embedding of the TypeScript sources:
* the per-tenant state store (the `SandboxManager` durable object holding a
  `SandboxState` record under one storage key),
* the resource resolver (`getOrCreateSandbox` in `worker/index.ts`),
* the streaming execution bridge (the chunk-reassembly log callback and the
  surrounding `handleClaudeRequest` orchestration in the partyserver
  `SandboxManager`).

JavaScript strings are modelled as `List Char`; the durable-object storage cell
as `Option SandboxState`; each `Date.now()` call as an explicit `Nat` argument;
remote-provider calls and `JSON.parse` as oracle parameters.  Effectful
operations return the new storage contents, and orchestration code additionally
returns the ordered list of observable actions it performed.
-/

namespace Nightona

/-- A JavaScript string, modelled character by character. -/
abbrev Str := List Char

/-- JavaScript truthiness of a `string | null | undefined` value: `null`,
`undefined` and the empty string are falsy. -/
def jsTruthyStr : Option Str → Bool
  | none => false
  | some s => s ≠ []

/-- The JavaScript fallback `x || null` on a `string | null` field: a falsy
value (absent or empty string) becomes `null`. -/
def jsOrNull (x : Option Str) : Option Str :=
  if jsTruthyStr x then x else none

/-- `Message.sender`, the `'user' | 'assistant'` union. -/
inductive Sender where
  | user
  | assistant
deriving DecidableEq, Repr

/-- The `Message` interface of `SandboxManager`. -/
structure Message where
  id : Str
  content : Str
  sender : Sender
  timestamp : Nat
deriving DecidableEq, Repr

/-- The `SandboxState` interface of `SandboxManager`: the persisted
per-tenant record.  Epoch-millisecond timestamps are `Nat` (`0` is the one
falsy number a timestamp field can hold). -/
structure SandboxState where
  sandboxId : Option Str
  isInitialized : Bool
  devServerUrl : Option Str
  createdAt : Nat
  lastAccessedAt : Nat
  messages : List Message
deriving DecidableEq, Repr

/-- The default record `getSandboxState` fabricates when storage is empty. -/
def defaultSandboxState (now : Nat) : SandboxState :=
  { sandboxId := none
    isInitialized := false
    devServerUrl := none
    createdAt := now
    lastAccessedAt := now
    messages := [] }

/-- `SandboxManager.getSandboxState`: reads the stored record; when absent it
returns a fresh default record without writing it back; when present it bumps
`lastAccessedAt` and persists the bump.  Returns the record handed to the
caller together with the storage contents afterwards. -/
def getSandboxState (store : Option SandboxState) (now : Nat) :
    SandboxState × Option SandboxState :=
  match store with
  | none => (defaultSandboxState now, none)
  | some s =>
      let s' := { s with lastAccessedAt := now }
      (s', some s')

/-- `SandboxManager.setSandboxState(sandboxId)` (the variant carrying
`devServerUrl` and `messages`): reads the existing record through
`getSandboxState`, then stores a record with the new id, `isInitialized =
true`, `devServerUrl: existingState.devServerUrl || null`, `createdAt:
existingState.createdAt || now`, and `messages: existingState.messages || []`
(an array is always truthy, so the messages fallback is the identity). -/
def setSandboxState (store : Option SandboxState) (sandboxId : Str) (now : Nat) :
    Option SandboxState :=
  let ex := (getSandboxState store now).1
  some
    { sandboxId := some sandboxId
      isInitialized := true
      devServerUrl := jsOrNull ex.devServerUrl
      createdAt := if ex.createdAt ≠ 0 then ex.createdAt else now
      lastAccessedAt := now
      messages := ex.messages }

/-- `SandboxManager.resetSandboxState`: stores a fresh default record. -/
def resetSandboxState (now : Nat) : Option SandboxState :=
  some (defaultSandboxState now)

/-- `SandboxManager.setDevServerUrl(url)`. -/
def setDevServerUrl (store : Option SandboxState) (url : Str) (now : Nat) :
    Option SandboxState :=
  let st := (getSandboxState store now).1
  some { st with devServerUrl := some url, lastAccessedAt := now }

/-- `SandboxManager.addMessage(message)`: re-reads the record, pushes the
message, bumps `lastAccessedAt`, stores. -/
def addMessage (store : Option SandboxState) (m : Message) (now : Nat) :
    Option SandboxState :=
  let st := (getSandboxState store now).1
  some { st with messages := st.messages ++ [m], lastAccessedAt := now }

/-- `SandboxManager.clearMessages`: re-reads the record, truncates `messages`
to empty, bumps `lastAccessedAt`, stores. -/
def clearMessages (store : Option SandboxState) (now : Nat) : Option SandboxState :=
  let st := (getSandboxState store now).1
  some { st with messages := [], lastAccessedAt := now }

/-! ## Streaming execution bridge

The log callback of `handleClaudeRequest`: per chunk it strips null bytes,
appends to `buffer`, splits on `'\n'`, keeps the trailing fragment in
`buffer`, and runs the line loop over the complete lines.  `JSON.parse`
is an oracle parameter producing the fields the callback inspects. -/

/-- `chunk.replace(/\0/g, '')`. -/
def stripNulls (s : Str) : Str := s.filter (fun c => c ≠ Char.ofNat 0)

/-- JavaScript `str.split('\n')`: the list of segments between newlines,
never empty (`"".split('\n')` is `[""]`). -/
def splitNl : Str → List Str
  | [] => [[]]
  | c :: rest =>
      let ps := splitNl rest
      if c = '\n' then [] :: ps
      else (c :: ps.headD []) :: ps.tail

/-- One element of `claudeMessage.message.content`: the callback reads
`block.type` and `block.text`. -/
structure ContentBlock where
  type : Str
  text : Option Str
deriving DecidableEq, Repr

/-- The shape of a parsed streaming line as the callback consumes it:
`claudeMessage.type` and `claudeMessage.message?.content`. -/
structure ClaudeMsg where
  type : Str
  content : Option (List ContentBlock)
deriving DecidableEq, Repr

/-- One unit forwarded over the WebSocket by the log callback: a parsed line
sent as `{type:'claude_streaming', data}` or an unparsable line sent as
`{type:'claude_text', content}`. -/
inductive StreamEvent where
  | streaming (m : ClaudeMsg)
  | rawText (line : Str)
deriving DecidableEq, Repr

/-- `JSON.parse` on one line, as the oracle the callback consults: `none`
models a parse exception. -/
abbrev JsonParse := Str → Option ClaudeMsg

/-- What one content block adds to the accumulator:
`if (block.type === 'text' && block.text)` — `block.text` must be present and
truthy (non-empty). -/
def blockText (b : ContentBlock) : Str :=
  match b.text with
  | some t => if b.type = "text".toList ∧ t ≠ [] then t else []
  | none => []

/-- The text appended for one parsed message:
`if (claudeMessage.type === 'assistant' && claudeMessage.message?.content)`
loop over the blocks (an array is truthy even when empty). -/
def extractAssistantText (m : ClaudeMsg) : Str :=
  if m.type = "assistant".toList then
    match m.content with
    | some blocks => (blocks.map blockText).flatten
    | none => []
  else []

/-- `!line.trim()`: the line trims to the empty string iff every character is
whitespace. -/
def isBlank (line : Str) : Bool := line.all (fun c => c.isWhitespace)

/-- The body of the per-line loop: a whitespace-only line is skipped; a line
that parses is forwarded as a structured event and contributes its extracted
assistant text; a line that does not parse is forwarded as raw text and
contributes itself plus a newline.  Returns (forwarded events, accumulator
contribution). -/
def processLine (parse : JsonParse) (line : Str) : List StreamEvent × Str :=
  if isBlank line then ([], [])
  else
    match parse line with
    | some m => ([.streaming m], extractAssistantText m)
    | none => ([.rawText line], line ++ ['\n'])

/-- The mutable locals of the log callback: `buffer` and `assistantContent`. -/
structure BridgeState where
  buffer : Str
  assistantContent : Str
deriving DecidableEq, Repr

/-- `let buffer = ''; let assistantContent = '';` -/
def initBridge : BridgeState := ⟨[], []⟩

/-- The `for (const line of lines)` loop over the complete lines. -/
def processLinesFold (parse : JsonParse) (st : BridgeState) :
    List Str → BridgeState × List StreamEvent
  | [] => (st, [])
  | l :: ls =>
      let r := processLine parse l
      let rest := processLinesFold parse
        { st with assistantContent := st.assistantContent ++ r.2 } ls
      (rest.1, r.1 ++ rest.2)

/-- One invocation of the log callback on `chunk`: strip null bytes, append to
the buffer, split on newline, pop the trailing fragment back into the buffer,
loop over the complete lines. -/
def processChunk (parse : JsonParse) (st : BridgeState) (chunk : Str) :
    BridgeState × List StreamEvent :=
  let parts := splitNl (st.buffer ++ stripNulls chunk)
  processLinesFold parse { st with buffer := parts.getLastD [] } parts.dropLast

/-- The whole stream: the callback fired once per delivered chunk, in order. -/
def runChunks (parse : JsonParse) (st : BridgeState) :
    List Str → BridgeState × List StreamEvent
  | [] => (st, [])
  | ch :: cs =>
      let r := processChunk parse st ch
      let rest := runChunks parse r.1 cs
      (rest.1, r.2 ++ rest.2)

/-! ## Resource resolver

`getOrCreateSandbox` in `worker/index.ts`.  The Daytona provider is an oracle:
`lookup` is the outcome of `daytona.findOne` (`failure` models a thrown
not-found or transport error), `healthy` the HEAD health probe of the preview
URL (a fetch exception and a non-ok status take the same path), `reuseOk`
whether the start / ensure-dev-server / preview calls of the chosen reuse
branch succeed (`false` models a throw, landing in the catch that falls
through to creation), `newId` the id `daytona.create` returns and
`previewUrl` the fresh preview link.  The result is the returned sandbox id,
the state-store contents afterwards, and the ordered provider actions. -/

/-- `sandbox.state?.toUpperCase()` (statuses are ASCII). -/
def jsToUpper (s : Str) : Str := s.map Char.toUpper

/-- What `daytona.findOne` hands back on success: the sandbox and its
reported `state` string (possibly absent). -/
structure ProviderSandbox where
  id : Str
  state : Option Str
deriving DecidableEq, Repr

/-- Outcome of the `findOne` lookup: a sandbox, or a thrown error. -/
inductive LookupOutcome where
  | ok (sb : ProviderSandbox)
  | failure
deriving DecidableEq, Repr

/-- Observable provider / store operations of the resolver. -/
inductive ProvAction where
  | findOne (id : Str)
  | healthProbe
  | startSandbox
  | ensureDevServer
  | setPreview (url : Str)
  | createSandbox
  | bindState (id : Str)
deriving DecidableEq, Repr

/-- The tail of `getOrCreateSandbox`: `daytona.create(...)` followed by
`sandboxManager.setSandboxState(sandbox.id)`, returning the new sandbox. -/
def createNewSandbox (store : Option SandboxState) (newId : Str) (now : Nat)
    (pre : List ProvAction) : Str × Option SandboxState × List ProvAction :=
  (newId, setSandboxState store newId now,
   pre ++ [.createSandbox, .bindState newId])

/-- `getOrCreateSandbox(daytona, CLAUDE_SNAPSHOT_NAME, env, sandboxState)`:
reuse the stored sandbox when its id is truthy and the provider reports
`STARTED` / `STOPPED` / `ARCHIVED` (compared after `toUpperCase`), otherwise
create a new sandbox and bind its id. -/
def getOrCreateSandbox (store : Option SandboxState) (sandboxState : SandboxState)
    (lookup : LookupOutcome) (healthy reuseOk : Bool) (newId previewUrl : Str)
    (now : Nat) : Str × Option SandboxState × List ProvAction :=
  if jsTruthyStr sandboxState.sandboxId then
    let id := sandboxState.sandboxId.getD []
    match lookup with
    | .failure => createNewSandbox store newId now [.findOne id]
    | .ok sb =>
        let st := sb.state.map jsToUpper
        if st = some "STARTED".toList then
          if healthy then (sb.id, store, [.findOne id, .healthProbe])
          else if reuseOk then
            (sb.id, store, [.findOne id, .healthProbe, .ensureDevServer])
          else createNewSandbox store newId now [.findOne id, .healthProbe]
        else if st = some "STOPPED".toList ∨ st = some "ARCHIVED".toList then
          if reuseOk then
            (sb.id, setDevServerUrl store previewUrl now,
             [.findOne id, .startSandbox, .ensureDevServer,
              .setPreview previewUrl])
          else createNewSandbox store newId now [.findOne id]
        else createNewSandbox store newId now [.findOne id]
  else createNewSandbox store newId now []

/-- True of a lookup outcome the resolver treats as "recreate": a thrown
lookup, or a reported status outside the recognized set (case-insensitively). -/
def lookupRecoverable : LookupOutcome → Prop
  | .failure => True
  | .ok sb =>
      sb.state.map jsToUpper ≠ some "STARTED".toList ∧
      sb.state.map jsToUpper ≠ some "STOPPED".toList ∧
      sb.state.map jsToUpper ≠ some "ARCHIVED".toList

def isCreate : ProvAction → Bool
  | .createSandbox => true
  | _ => false

/-! ## Streaming request orchestration

`SandboxManager.handleClaudeRequest` (the partyserver variant): the whole
WebSocket request path around the log callback.  Remote effects are oracle
fields of `HandlerEnv`; the result is the storage contents afterwards and the
ordered list of observable actions (WebSocket sends, conversation appends,
session creation, the issued command with its continue flag). -/

/-- The tag of a `{type:'error'}` WebSocket send. -/
inductive ErrReason where
  | noSandbox
  | timeout
  | internal
deriving DecidableEq, Repr

/-- A WebSocket message sent to the client. -/
inductive WsOut where
  | errorMsg (reason : ErrReason)
  | userAck (content : Str)
  | claudeStreaming (m : ClaudeMsg)
  | claudeText (line : Str)
  | claudeComplete (content : Str)
deriving DecidableEq, Repr

/-- One observable action of `handleClaudeRequest`, in program order. -/
inductive HAction where
  | send (o : WsOut)
  | storeMessage (sender : Sender) (content : Str)
  | createSession
  | execCommand (continueFlag : Bool)
deriving DecidableEq, Repr

/-- How a forwarded bridge event goes out on the WebSocket. -/
def wsOfEvent : StreamEvent → WsOut
  | .streaming m => .claudeStreaming m
  | .rawText l => .claudeText l

/-- `const timeoutPromise = ... 30000`: the fixed streaming timeout in
milliseconds. -/
def streamTimeoutMs : Nat := 30000

/-- `'Claude task completed'`, the `claude_complete` fallback content. -/
def doneFallback : Str := "Claude task completed".toList

/-- JavaScript `assistantContent.trim()`. -/
def trimStr (s : Str) : Str :=
  ((s.dropWhile Char.isWhitespace).reverse.dropWhile Char.isWhitespace).reverse

/-- `sandboxState.messages.filter(m => m.sender === 'user').length <= 1`,
computed on the state snapshot read at the top of the handler (before the
current user message was appended). -/
def isFirstMessage (msgs : List Message) : Bool :=
  decide ((msgs.filter fun m => decide (m.sender = Sender.user)).length ≤ 1)

/-- The oracle environment of one `handleClaudeRequest` invocation:
`apiKeyPresent` is `env.DAYTONA_API_KEY` being set; `remoteOk` models the
remote calls issued before streaming (`findOne`, `createSession`,
`executeSessionCommand`) succeeding, `false` a throw reaching the outer
catch; `chunks` are the byte chunks the log subscription delivered;
`timedOut` is the `Promise.race` catch firing (the 30 s timeout elapsing, or
the subscription rejecting); `uid`/`aid` and `tRead`/`tUser`/`tAsst` are the
`Date.now()`-derived ids and timestamps. -/
structure HandlerEnv where
  apiKeyPresent : Bool
  remoteOk : Bool
  parse : JsonParse
  chunks : List Str
  timedOut : Bool
  uid : Str
  aid : Str
  tRead : Nat
  tUser : Nat
  tAsst : Nat

/-- `handleClaudeRequest(connection, message)`: read state; reject when no
initialized sandbox; append the user turn and acknowledge it; on a missing
key or a failed remote call the outer catch sends one error; otherwise issue
the command (continue flag from the pre-append snapshot), relay the stream,
send the timeout error when the race failed, append the assistant turn when
the trimmed accumulator is non-empty, and send `claude_complete`. -/
def handleClaudeRequest (store : Option SandboxState) (message : Str)
    (env : HandlerEnv) : Option SandboxState × List HAction :=
  let r0 := getSandboxState store env.tRead
  let s0 := r0.1
  if !(s0.isInitialized && jsTruthyStr s0.sandboxId) then
    (r0.2, [.send (.errorMsg .noSandbox)])
  else
    let userMsg : Message := ⟨env.uid, message, .user, env.tUser⟩
    let store1 := addMessage r0.2 userMsg env.tUser
    let pre : List HAction :=
      [.storeMessage .user message, .send (.userAck message)]
    if !env.apiKeyPresent then
      (store1, pre ++ [.send (.errorMsg .internal)])
    else if !env.remoteOk then
      (store1, pre ++ [.send (.errorMsg .internal)])
    else
      let contFlag := !isFirstMessage s0.messages
      let stream := runChunks env.parse initBridge env.chunks
      let streamActs := stream.2.map (fun e => HAction.send (wsOfEvent e))
      let timeoutActs : List HAction :=
        if env.timedOut then [.send (.errorMsg .timeout)] else []
      let acc := trimStr stream.1.assistantContent
      let finish :=
        if acc ≠ [] then
          (addMessage store1 ⟨env.aid, acc, .assistant, env.tAsst⟩ env.tAsst,
           [HAction.storeMessage .assistant acc])
        else (store1, ([] : List HAction))
      (finish.1,
       pre ++ [.createSession, .execCommand contFlag] ++ streamActs
         ++ timeoutActs ++ finish.2
         ++ [.send (.claudeComplete (if acc = [] then doneFallback else acc))])

def isErrorSend : HAction → Bool
  | .send (.errorMsg _) => true
  | _ => false

def isUserStore : HAction → Bool
  | .storeMessage .user _ => true
  | _ => false

def isAssistantStore : HAction → Bool
  | .storeMessage .assistant _ => true
  | _ => false

def isExec : HAction → Bool
  | .execCommand _ => true
  | _ => false

/-- The continue flags of the commands a trace issued, in order. -/
def execFlags (acts : List HAction) : List Bool :=
  acts.filterMap fun a =>
    match a with
    | .execCommand f => some f
    | _ => none

/-- A bound, never-before-used record: `sandboxId` set, `isInitialized`,
empty conversation. -/
def freshBoundState : SandboxState :=
  { sandboxId := some ['s', 'b'], isInitialized := true, devServerUrl := none,
    createdAt := 1, lastAccessedAt := 1, messages := [] }

/-- A benign oracle: key present, remote calls succeed, no chunks delivered,
no timeout, every line unparsable. -/
def plainEnv : HandlerEnv :=
  { apiKeyPresent := true, remoteOk := true, parse := fun _ => none,
    chunks := [], timedOut := false, uid := ['u'], aid := ['a'],
    tRead := 2, tUser := 3, tAsst := 4 }

/-- `plainEnv` with the streaming race failing. -/
def timeoutEnv : HandlerEnv := { plainEnv with timedOut := true }

/-! ## Theorems -/

theorem splitNl_ne_nil (s : Str) : splitNl s ≠ [] := by
  cases s with
  | nil => simp [splitNl]
  | cons c rest =>
      simp only [splitNl]
      split <;> simp

theorem splitNl_eq_singleton (s : Str) (h : '\n' ∉ s) : splitNl s = [s] := by
  induction s with
  | nil => rfl
  | cons c rest ih =>
      have hc : c ≠ '\n' := fun hc => h (hc ▸ List.mem_cons_self c rest)
      have hr : '\n' ∉ rest := fun hr => h (List.mem_cons_of_mem c hr)
      simp [splitNl, hc, ih hr]

theorem splitNl_cons (c : Char) (rest : Str) :
    splitNl (c :: rest) =
      if c = '\n' then [] :: splitNl rest
      else (c :: (splitNl rest).headD []) :: (splitNl rest).tail := rfl

theorem getLastD_irrel {α : Type} (v : List α) (hv : v ≠ []) (d₁ d₂ : α) :
    v.getLastD d₁ = v.getLastD d₂ := by
  cases v with
  | nil => exact absurd rfl hv
  | cons h t => rw [List.getLastD_cons, List.getLastD_cons]

theorem getLastD_append_right {α : Type} (u : List α) {v : List α} (d : α)
    (hv : v ≠ []) : (u ++ v).getLastD d = v.getLastD d := by
  induction u generalizing d with
  | nil => rfl
  | cons x u ih =>
      rw [List.cons_append, List.getLastD_cons, ih x]
      exact getLastD_irrel v hv x d

/-- The buffer retained after a split never contains a newline. -/
theorem newline_not_mem_getLastD_splitNl (s : Str) :
    '\n' ∉ (splitNl s).getLastD [] := by
  induction s with
  | nil => simp [splitNl]
  | cons c rest ih =>
      by_cases hc : c = '\n'
      · simp only [splitNl, if_pos hc, List.getLastD_cons]
        exact ih
      · simp only [splitNl, if_neg hc, List.getLastD_cons]
        rcases hps : splitNl rest with _ | ⟨p, _ | ⟨q, rs⟩⟩
        · exact absurd hps (splitNl_ne_nil rest)
        · simp only [List.headD_cons, List.tail_cons, List.getLastD_nil]
          intro hmem
          rcases List.mem_cons.1 hmem with h1 | h2
          · exact hc h1.symm
          · have h3 := ih
            rw [hps] at h3
            simp only [List.getLastD_cons, List.getLastD_nil] at h3
            exact h3 h2
        · simp only [List.headD_cons, List.tail_cons, List.getLastD_cons]
          have h3 := ih
          rw [hps] at h3
          simp only [List.getLastD_cons] at h3
          exact h3

/-- How splitting on newline decomposes over concatenation: the complete lines
of `a`, then the seam line joining `a`'s trailing fragment with `b`'s first
segment, then the rest of `b`'s segments. -/
theorem splitNl_append (a b : Str) :
    splitNl (a ++ b) =
      (splitNl a).dropLast ++
        ((splitNl a).getLastD [] ++ (splitNl b).headD []) :: (splitNl b).tail := by
  induction a with
  | nil =>
      rcases hb : splitNl b with _ | ⟨h, t⟩
      · exact absurd hb (splitNl_ne_nil b)
      · simp [splitNl, hb]
  | cons c a' ih =>
      by_cases hc : c = '\n'
      · subst hc
        have l1 : splitNl ('\n' :: (a' ++ b)) = [] :: splitNl (a' ++ b) := by
          rw [splitNl_cons, if_pos rfl]
        have l2 : splitNl ('\n' :: a') = [] :: splitNl a' := by
          rw [splitNl_cons, if_pos rfl]
        rw [List.cons_append, l1, l2, ih]
        rcases ha : splitNl a' with _ | ⟨p, ps⟩
        · exact absurd ha (splitNl_ne_nil a')
        · simp only [List.headD_cons, List.tail_cons, List.dropLast_cons₂,
            List.getLastD_cons, List.cons_append]
      · have l1 : splitNl (c :: (a' ++ b)) =
            (c :: (splitNl (a' ++ b)).headD []) :: (splitNl (a' ++ b)).tail := by
          rw [splitNl_cons, if_neg hc]
        have l2 : splitNl (c :: a') =
            (c :: (splitNl a').headD []) :: (splitNl a').tail := by
          rw [splitNl_cons, if_neg hc]
        rw [List.cons_append, l1, l2, ih]
        rcases ha : splitNl a' with _ | ⟨p, _ | ⟨q, rs⟩⟩
        · exact absurd ha (splitNl_ne_nil a')
        · simp only [List.headD_cons, List.tail_cons, List.dropLast_single,
            List.getLastD_nil, List.getLastD_cons, List.nil_append, List.cons_append]
        · simp only [List.headD_cons, List.tail_cons, List.dropLast_cons₂,
            List.getLastD_cons, List.cons_append]

theorem processLinesFold_eq (parse : JsonParse) (st : BridgeState) (ls : List Str) :
    processLinesFold parse st ls =
      ({ st with assistantContent :=
          st.assistantContent ++ (ls.map (fun l => (processLine parse l).2)).flatten },
       ls.flatMap (fun l => (processLine parse l).1)) := by
  induction ls generalizing st with
  | nil => simp [processLinesFold]
  | cons l ls ih =>
      simp only [processLinesFold, ih, List.map_cons, List.flatten_cons,
        List.flatMap_cons, List.append_assoc]

theorem runChunks_general (parse : JsonParse) (chunks : List Str) :
    ∀ b a : Str, '\n' ∉ b →
      runChunks parse ⟨b, a⟩ chunks =
        (⟨(splitNl (b ++ stripNulls chunks.flatten)).getLastD [],
          a ++ ((splitNl (b ++ stripNulls chunks.flatten)).dropLast.map
            (fun l => (processLine parse l).2)).flatten⟩,
         (splitNl (b ++ stripNulls chunks.flatten)).dropLast.flatMap
           (fun l => (processLine parse l).1)) := by
  induction chunks with
  | nil =>
      intro b a hb
      rw [List.flatten_nil]
      have hsn : stripNulls [] = [] := rfl
      rw [hsn, List.append_nil, splitNl_eq_singleton b hb]
      simp [runChunks]
  | cons ch cs ih =>
      intro b a hb
      have hflat : stripNulls ((ch :: cs).flatten) =
          stripNulls ch ++ stripNulls cs.flatten := by
        rw [List.flatten_cons]
        exact List.filter_append _ _
      set p1 := splitNl (b ++ stripNulls ch) with hp1
      have hb1 : '\n' ∉ p1.getLastD [] := newline_not_mem_getLastD_splitNl _
      have hstep : runChunks parse ⟨b, a⟩ (ch :: cs) =
          (let r := processChunk parse ⟨b, a⟩ ch
           let rest := runChunks parse r.1 cs
           (rest.1, r.2 ++ rest.2)) := rfl
      have hchunk : processChunk parse ⟨b, a⟩ ch =
          (⟨p1.getLastD [],
            a ++ (p1.dropLast.map (fun l => (processLine parse l).2)).flatten⟩,
           p1.dropLast.flatMap (fun l => (processLine parse l).1)) := by
        rw [processChunk, processLinesFold_eq]
      -- decompose the total split at the seam after this chunk
      have hp2ne : splitNl (p1.getLastD [] ++ stripNulls cs.flatten) ≠ [] :=
        splitNl_ne_nil _
      have htot : splitNl (b ++ stripNulls ((ch :: cs).flatten)) =
          p1.dropLast ++ splitNl (p1.getLastD [] ++ stripNulls cs.flatten) := by
        rw [hflat, ← List.append_assoc, splitNl_append (b ++ stripNulls ch),
          splitNl_append (p1.getLastD []), splitNl_eq_singleton _ hb1]
        simp [hp1]
      rw [hstep, hchunk]
      dsimp only
      rw [ih (p1.getLastD []) _ hb1, htot]
      rw [List.dropLast_append_of_ne_nil _ hp2ne,
        getLastD_append_right _ _ hp2ne,
        List.map_append, List.flatten_append, List.flatMap_append,
        List.append_assoc]

/-- C1, counterexample.  A whitespace-only complete line is dropped entirely:
delivering the single chunk `"  \n"` (whose line-split has the complete line
`"  "`), the bridge forwards no event at all and accumulates nothing, so the
forwarded raw text plus extracted assistant text is empty while the line-split
of the concatenated chunks carries the non-empty line `"  "` — data is lost,
contradicting the claimed conservation. -/
theorem runChunks_drops_blank_line :
    (runChunks (fun _ => none) initBridge [[' ', ' ', '\n']]).2 = [] ∧
    (runChunks (fun _ => none) initBridge [[' ', ' ', '\n']]).1.assistantContent = [] ∧
    (splitNl (stripNulls ([[' ', ' ', '\n']] : List Str).flatten)).dropLast
      = [[' ', ' ']] := by
  decide

/-- C1, amended.  Chunk reassembly loses nothing at chunk boundaries: over any
chunk sequence and any parse oracle, the bridge ends with its buffer holding
exactly the trailing incomplete fragment of the (null-stripped) concatenation
of all chunks, it forwards exactly the events of the complete lines of that
concatenation in order, and the accumulator — the concatenation of forwarded
raw-text content (each with its newline restored) plus extracted
assistant-text content — equals the concatenation, over the complete lines of
the line-split of the concatenated chunks, of each line's contribution
(nothing for a whitespace-only line, the extracted assistant text for a line
that parses, the line itself plus a newline otherwise). -/
theorem runChunks_chunk_reassembly (parse : JsonParse) (chunks : List Str) :
    runChunks parse initBridge chunks =
      (⟨(splitNl (stripNulls chunks.flatten)).getLastD [],
        ((splitNl (stripNulls chunks.flatten)).dropLast.map
          (fun l => (processLine parse l).2)).flatten⟩,
       (splitNl (stripNulls chunks.flatten)).dropLast.flatMap
         (fun l => (processLine parse l).1)) := by
  have h := runChunks_general parse chunks [] [] (by simp)
  simpa [initBridge] using h

/-- C2.  When the stored id is set but the lookup throws or reports an
unrecognized status, the resolver performs exactly one create, returns the new
sandbox (no error surfaced), and binds the new id into the store: afterwards
the record has the new `sandboxId` and `isInitialized = true`. -/
theorem resolver_recreates_on_lookup_failure (store : Option SandboxState)
    (s : SandboxState) (lookup : LookupOutcome) (healthy reuseOk : Bool)
    (newId previewUrl : Str) (now : Nat)
    (hid : jsTruthyStr s.sandboxId = true)
    (hlk : lookupRecoverable lookup) :
    let r := getOrCreateSandbox store s lookup healthy reuseOk newId previewUrl now
    r.2.2.countP isCreate = 1 ∧
    r.1 = newId ∧
    ∃ rec, r.2.1 = some rec ∧
      rec.sandboxId = some newId ∧ rec.isInitialized = true := by
  intro r
  have hr : r = createNewSandbox store newId now
      ((ProvAction.findOne (s.sandboxId.getD [])) ::
        (match lookup with
         | .failure => []
         | .ok _ => [])) := by
    show getOrCreateSandbox store s lookup healthy reuseOk newId previewUrl now = _
    rw [getOrCreateSandbox, if_pos hid]
    cases lookup with
    | failure => rfl
    | ok sb =>
        obtain ⟨h1, h2, h3⟩ := hlk
        have hor : ¬ (sb.state.map jsToUpper = some "STOPPED".toList ∨
            sb.state.map jsToUpper = some "ARCHIVED".toList) := by
          intro hor
          cases hor with
          | inl h => exact h2 h
          | inr h => exact h3 h
        simp only [if_neg h1, if_neg hor]
  rw [hr]
  refine ⟨?_, rfl, ⟨_, rfl, rfl, rfl⟩⟩
  cases lookup <;> simp [createNewSandbox, isCreate, List.countP_cons, List.countP_nil]

/-- C2, witness: a bound record whose provider lookup reports the
unrecognized status `"destroyed"`. -/
theorem resolver_recreates_on_lookup_failure_witness :
    jsTruthyStr (SandboxState.mk (some ['x']) true none 1 1 []).sandboxId = true ∧
    lookupRecoverable (.ok ⟨['x'], some "destroyed".toList⟩) ∧
    (let r := getOrCreateSandbox none (SandboxState.mk (some ['x']) true none 1 1 [])
        (.ok ⟨['x'], some "destroyed".toList⟩) true true ['n'] ['p'] 9
     r.2.2.countP isCreate = 1 ∧
     r.1 = ['n'] ∧
     ∃ rec, r.2.1 = some rec ∧
       rec.sandboxId = some ['n'] ∧ rec.isInitialized = true) :=
  ⟨by decide, ⟨by decide, by decide, by decide⟩,
   resolver_recreates_on_lookup_failure none _ _ true true ['n'] ['p'] 9
     (by decide) ⟨by decide, by decide, by decide⟩⟩

theorem countP_isErrorSend_stream (evs : List StreamEvent) :
    (evs.map fun e => HAction.send (wsOfEvent e)).countP isErrorSend = 0 := by
  rw [List.countP_eq_zero]
  intro a ha
  rw [List.mem_map] at ha
  obtain ⟨e, _, rfl⟩ := ha
  cases e <;> simp [wsOfEvent, isErrorSend]

theorem countP_isUserStore_stream (evs : List StreamEvent) :
    (evs.map fun e => HAction.send (wsOfEvent e)).countP isUserStore = 0 := by
  rw [List.countP_eq_zero]
  intro a ha
  rw [List.mem_map] at ha
  obtain ⟨e, _, rfl⟩ := ha
  cases e <;> simp [wsOfEvent, isUserStore]

theorem countP_isAssistantStore_stream (evs : List StreamEvent) :
    (evs.map fun e => HAction.send (wsOfEvent e)).countP isAssistantStore = 0 := by
  rw [List.countP_eq_zero]
  intro a ha
  rw [List.mem_map] at ha
  obtain ⟨e, _, rfl⟩ := ha
  cases e <;> simp [wsOfEvent, isAssistantStore]

theorem countP_isExec_stream (evs : List StreamEvent) :
    (evs.map fun e => HAction.send (wsOfEvent e)).countP isExec = 0 := by
  rw [List.countP_eq_zero]
  intro a ha
  rw [List.mem_map] at ha
  obtain ⟨e, _, rfl⟩ := ha
  cases e <;> simp [wsOfEvent, isExec]

/-- C4.  If the log subscription races out (the fixed 30000 ms timeout), the
handler forwards exactly one error-typed event, still appends the assistant
turn exactly when the trimmed accumulator is non-empty, and still sends the
completion message: a partial failure, not a total one. -/
theorem handler_timeout_partial_failure (store : Option SandboxState)
    (message : Str) (env : HandlerEnv)
    (hinit : ((getSandboxState store env.tRead).1.isInitialized &&
      jsTruthyStr (getSandboxState store env.tRead).1.sandboxId) = true)
    (hkey : env.apiKeyPresent = true) (hremote : env.remoteOk = true)
    (htimeout : env.timedOut = true) :
    (handleClaudeRequest store message env).2.countP isErrorSend = 1 ∧
    (handleClaudeRequest store message env).2.countP isAssistantStore =
      (if trimStr (runChunks env.parse initBridge env.chunks).1.assistantContent = []
       then 0 else 1) ∧
    (∃ front, (handleClaudeRequest store message env).2 = front ++
      [.send (.claudeComplete
        (if trimStr (runChunks env.parse initBridge env.chunks).1.assistantContent = []
         then doneFallback
         else trimStr (runChunks env.parse initBridge env.chunks).1.assistantContent))]) ∧
    streamTimeoutMs = 30000 := by
  set A := trimStr (runChunks env.parse initBridge env.chunks).1.assistantContent with hA
  have hacts : (handleClaudeRequest store message env).2 =
      [HAction.storeMessage .user message, .send (.userAck message)]
        ++ [.createSession,
            .execCommand (!isFirstMessage (getSandboxState store env.tRead).1.messages)]
        ++ ((runChunks env.parse initBridge env.chunks).2.map
             fun e => HAction.send (wsOfEvent e))
        ++ [.send (.errorMsg .timeout)]
        ++ (if A ≠ [] then [HAction.storeMessage .assistant A] else [])
        ++ [.send (.claudeComplete (if A = [] then doneFallback else A))] := by
    rw [handleClaudeRequest]
    simp only [hinit, hkey, hremote, htimeout, Bool.not_true, Bool.false_eq_true,
      if_false, if_true, ← hA]
    by_cases hacc : A = [] <;> simp [hacc]
  refine ⟨?_, ?_, ⟨_, hacts⟩, rfl⟩
  · rw [hacts]
    simp only [List.countP_append, countP_isErrorSend_stream]
    by_cases hacc : A = [] <;>
      simp [hacc, isErrorSend, List.countP_cons, List.countP_nil]
  · rw [hacts]
    simp only [List.countP_append, countP_isAssistantStore_stream]
    by_cases hacc : A = [] <;>
      simp [hacc, isAssistantStore, List.countP_cons, List.countP_nil]

/-- C5.  Whenever the handler runs against an initialized record, the user
turn is stored as the very first action (hence strictly before the command is
issued), it is stored exactly once, the command is issued exactly once when
the pre-streaming remote calls succeed and never otherwise, and the assistant
turn is stored exactly once when streaming was reached and the trimmed
accumulator is non-empty, never otherwise. -/
theorem handler_append_discipline (store : Option SandboxState)
    (message : Str) (env : HandlerEnv)
    (hinit : ((getSandboxState store env.tRead).1.isInitialized &&
      jsTruthyStr (getSandboxState store env.tRead).1.sandboxId) = true) :
    (∃ rest, (handleClaudeRequest store message env).2 =
      HAction.storeMessage .user message :: rest) ∧
    (handleClaudeRequest store message env).2.countP isUserStore = 1 ∧
    (handleClaudeRequest store message env).2.countP isAssistantStore =
      (if (env.apiKeyPresent && env.remoteOk) = true ∧
          trimStr (runChunks env.parse initBridge env.chunks).1.assistantContent ≠ []
       then 1 else 0) ∧
    (handleClaudeRequest store message env).2.countP isExec =
      (if (env.apiKeyPresent && env.remoteOk) = true then 1 else 0) := by
  set A := trimStr (runChunks env.parse initBridge env.chunks).1.assistantContent with hA
  cases hkey : env.apiKeyPresent with
  | false =>
      have hacts : (handleClaudeRequest store message env).2 =
          [HAction.storeMessage .user message, .send (.userAck message),
           .send (.errorMsg .internal)] := by
        rw [handleClaudeRequest]
        simp only [hinit, hkey, Bool.not_true, Bool.not_false, Bool.false_eq_true,
          if_false, if_true]
        rfl
      rw [hacts]
      refine ⟨⟨_, rfl⟩, ?_, ?_, ?_⟩ <;>
        simp [isUserStore, isAssistantStore, isExec, List.countP_cons, List.countP_nil]
  | true =>
      cases hrem : env.remoteOk with
      | false =>
          have hacts : (handleClaudeRequest store message env).2 =
              [HAction.storeMessage .user message, .send (.userAck message),
               .send (.errorMsg .internal)] := by
            rw [handleClaudeRequest]
            simp only [hinit, hkey, hrem, Bool.not_true, Bool.not_false,
              Bool.false_eq_true, if_false, if_true]
            rfl
          rw [hacts]
          refine ⟨⟨_, rfl⟩, ?_, ?_, ?_⟩ <;>
            simp [isUserStore, isAssistantStore, isExec, List.countP_cons,
              List.countP_nil]
      | true =>
          have hacts : (handleClaudeRequest store message env).2 =
              [HAction.storeMessage .user message, .send (.userAck message)]
                ++ [.createSession,
                    .execCommand
                      (!isFirstMessage (getSandboxState store env.tRead).1.messages)]
                ++ ((runChunks env.parse initBridge env.chunks).2.map
                     fun e => HAction.send (wsOfEvent e))
                ++ (if env.timedOut then [HAction.send (.errorMsg .timeout)] else [])
                ++ (if A ≠ [] then [HAction.storeMessage .assistant A] else [])
                ++ [.send (.claudeComplete (if A = [] then doneFallback else A))] := by
            rw [handleClaudeRequest]
            simp only [hinit, hkey, hrem, Bool.not_true, Bool.not_false,
              Bool.false_eq_true, if_false, if_true, ← hA]
            by_cases hacc : A = [] <;> simp [hacc]
          rw [hacts]
          refine ⟨⟨_, rfl⟩, ?_, ?_, ?_⟩ <;>
          · simp only [List.countP_append, countP_isUserStore_stream,
              countP_isAssistantStore_stream, countP_isExec_stream]
            by_cases htO : env.timedOut <;> by_cases hacc : A = [] <;>
              simp [htO, hacc, isUserStore, isAssistantStore, isExec,
                List.countP_cons, List.countP_nil]

/-- C3.  Two messages sent back-to-back on a never-before-used record:
`isFirstMessage` is computed over the state snapshot read *before* the
current user message is appended, yet compares the prior user-message count
with `<= 1`.  The first invocation (snapshot: zero user messages) omits
`--continue` as claimed, but the second invocation (snapshot: exactly one
prior user message, i.e. existing conversation history) also omits it —
`execFlags` is `[false]` both times where the claim requires `[true]` for the
second. -/
theorem second_message_omits_continue :
    execFlags (handleClaudeRequest (some freshBoundState) ['h', 'i'] plainEnv).2
      = [false] ∧
    execFlags (handleClaudeRequest
      (handleClaudeRequest (some freshBoundState) ['h', 'i'] plainEnv).1
      ['y', 'o'] plainEnv).2 = [false] := by decide

/-- C4, witness: a timed-out invocation on a bound record with no delivered
chunks. -/
theorem handler_timeout_partial_failure_witness :
    (handleClaudeRequest (some freshBoundState) ['h', 'i'] timeoutEnv).2.countP
      isErrorSend = 1 ∧
    (handleClaudeRequest (some freshBoundState) ['h', 'i'] timeoutEnv).2.countP
      isAssistantStore =
      (if trimStr (runChunks timeoutEnv.parse initBridge
          timeoutEnv.chunks).1.assistantContent = []
       then 0 else 1) ∧
    (∃ front, (handleClaudeRequest (some freshBoundState) ['h', 'i'] timeoutEnv).2
      = front ++
      [.send (.claudeComplete
        (if trimStr (runChunks timeoutEnv.parse initBridge
            timeoutEnv.chunks).1.assistantContent = []
         then doneFallback
         else trimStr (runChunks timeoutEnv.parse initBridge
            timeoutEnv.chunks).1.assistantContent))]) ∧
    streamTimeoutMs = 30000 :=
  handler_timeout_partial_failure (some freshBoundState) ['h', 'i'] timeoutEnv
    (by decide) rfl rfl rfl

/-- C5, witness. -/
theorem handler_append_discipline_witness :
    (∃ rest, (handleClaudeRequest (some freshBoundState) ['h', 'i'] plainEnv).2 =
      HAction.storeMessage .user ['h', 'i'] :: rest) ∧
    (handleClaudeRequest (some freshBoundState) ['h', 'i'] plainEnv).2.countP
      isUserStore = 1 ∧
    (handleClaudeRequest (some freshBoundState) ['h', 'i'] plainEnv).2.countP
      isAssistantStore =
      (if (plainEnv.apiKeyPresent && plainEnv.remoteOk) = true ∧
          trimStr (runChunks plainEnv.parse initBridge
            plainEnv.chunks).1.assistantContent ≠ []
       then 1 else 0) ∧
    (handleClaudeRequest (some freshBoundState) ['h', 'i'] plainEnv).2.countP
      isExec = (if (plainEnv.apiKeyPresent && plainEnv.remoteOk) = true then 1 else 0) :=
  handler_append_discipline (some freshBoundState) ['h', 'i'] plainEnv (by decide)

/-- C6, counterexample.  The claim says that after the first read on an absent
record "the per-tenant record exists in the store with isBound=false".  In the
code, `getSandboxState` on empty storage returns a fabricated default record
but performs no `storage.put`: afterwards the store still holds nothing. -/
theorem getSandboxState_absent_leaves_store_empty :
    (getSandboxState none 5).2 = none := rfl

/-- C6, amended.  A read returns the current record, fabricating a default
(unbound, empty conversation) when none is stored — but without persisting it;
only when a record already exists does the read bump `lastAccessedAt` and
write the bump back. -/
theorem getSandboxState_read_spec (now : Nat) (s : SandboxState) :
    getSandboxState none now = (defaultSandboxState now, none) ∧
    (defaultSandboxState now).isInitialized = false ∧
    (defaultSandboxState now).sandboxId = none ∧
    (defaultSandboxState now).messages = [] ∧
    (defaultSandboxState now).lastAccessedAt = now ∧
    getSandboxState (some s) now =
      ({ s with lastAccessedAt := now }, some { s with lastAccessedAt := now }) :=
  ⟨rfl, rfl, rfl, rfl, rfl, rfl⟩

/-- C7.  `setSandboxState` on an existing record sets the new `sandboxId` and
`isInitialized = true`, leaves `devServerUrl` (the preview address — an
optional URL, hence never the empty string) and `messages` unchanged, and
keeps an already-set `createdAt` while filling an unset (`0`) one with `now`. -/
theorem setSandboxState_bind_spec (s : SandboxState) (id : Str) (now : Nat)
    (hurl : s.devServerUrl ≠ some []) :
    ∃ r, setSandboxState (some s) id now = some r ∧
      r.sandboxId = some id ∧
      r.isInitialized = true ∧
      r.devServerUrl = s.devServerUrl ∧
      r.messages = s.messages ∧
      r.createdAt = (if s.createdAt ≠ 0 then s.createdAt else now) := by
  refine ⟨_, rfl, rfl, rfl, ?_, rfl, rfl⟩
  show jsOrNull s.devServerUrl = s.devServerUrl
  cases h : s.devServerUrl with
  | none => rfl
  | some u =>
      have hu : u ≠ [] := by
        intro hnil
        exact hurl (by simp [h, hnil])
      simp [jsOrNull, jsTruthyStr, hu]

/-- C7, witness. -/
theorem setSandboxState_bind_spec_witness :
    ∃ r, setSandboxState (some ⟨some ['a'], true, some ['u'], 7, 9, []⟩) ['b'] 11 =
        some r ∧
      r.sandboxId = some ['b'] ∧
      r.isInitialized = true ∧
      r.devServerUrl = some ['u'] ∧
      r.messages = ([] : List Message) ∧
      r.createdAt = (if (7 : Nat) ≠ 0 then 7 else 11) :=
  setSandboxState_bind_spec ⟨some ['a'], true, some ['u'], 7, 9, []⟩ ['b'] 11 (by decide)

/-- C8.  `clearMessages` empties the conversation and touches nothing but
`messages` and `lastAccessedAt`; a second call in a row again yields an empty
conversation with `sandboxId`, `isInitialized` and `devServerUrl` still at the
values they had before the first call. -/
theorem clearMessages_idempotent_frame (s : SandboxState) (n₁ n₂ : Nat) :
    clearMessages (some s) n₁ = some { s with messages := [], lastAccessedAt := n₁ } ∧
    clearMessages (clearMessages (some s) n₁) n₂ =
      some { s with messages := [], lastAccessedAt := n₂ } :=
  ⟨rfl, rfl⟩

end Nightona
